import Mathlib

/-!
Verification development for the linkedin-job-tracker scraper (`scraper.py`).

Python strings are modelled as `List Char`; Python sets as `Finset`;
the CSV store and the Gemini response are passed explicitly as values.
All definitions are shallow embeddings of the corresponding Python
functions in `scraper.py`.
-/

/-- Convert a Lean string literal to the `List Char` text model. -/
def str (s : String) : List Char := s.toList

/-- ASCII lower-casing of a single character (model of Python `str.lower`). -/
def toLowerChar (c : Char) : Char :=
  if 65 ≤ c.toNat ∧ c.toNat ≤ 90 then Char.ofNat (c.toNat + 32) else c

/-- ASCII upper-casing of a single character (model of Python `str.upper`). -/
def toUpperChar (c : Char) : Char :=
  if 97 ≤ c.toNat ∧ c.toNat ≤ 122 then Char.ofNat (c.toNat - 32) else c

/-- Lower-case a whole text (Python `s.lower()`). -/
def lowerL (l : List Char) : List Char := l.map toLowerChar

/-- Python `str.capitalize`: first character upper-cased, rest lower-cased. -/
def pyCapitalize : List Char → List Char
  | [] => []
  | c :: t => toUpperChar c :: lowerL t

/-- Whitespace test matching the regex class `\s` on ASCII text. -/
def isWs (c : Char) : Bool :=
  c = ' ' || c = '\t' || c = '\n' || c = '\r' || c = '\x0b' || c = '\x0c'

/-- Digit test matching the regex class `\d` on ASCII text. -/
def isDig (c : Char) : Bool := '0' ≤ c && c ≤ '9'

/-- Consume the maximal run of leading whitespace (regex `\s*`, greedy). -/
def skipWs : List Char → List Char
  | [] => []
  | c :: t => if isWs c then skipWs t else c :: t

/-- Python `sep.join(parts)`. -/
def pyJoin (sep : List Char) : List (List Char) → List Char
  | [] => []
  | [x] => x
  | x :: y :: t => x ++ sep ++ pyJoin sep (y :: t)

/-- Case-insensitive literal matcher: `stripCI pat l` succeeds when the
characters of `l` start with `pat` up to ASCII case, returning the matched
original characters and the remaining input.  `pat` is given lower-case. -/
def stripCI : List Char → List Char → Option (List Char × List Char)
  | [], l => some ([], l)
  | _ :: _, [] => none
  | p :: ps, c :: cs =>
    if toLowerChar c = p then
      match stripCI ps cs with
      | some (m, r) => some (c :: m, r)
      | none => none
    else none

/-- Model of `re.search`: try the matcher at every start position, left to
right, returning the first success (Python regex leftmost-match rule). -/
def searchWith {α : Type} (f : List Char → Option α) : List Char → Option α
  | [] => f []
  | c :: t =>
    match f (c :: t) with
    | some g => some g
    | none => searchWith f t

/-- Bool test that `pre` is a prefix of `l` (Python `str.startswith`). -/
def startsWithL : List Char → List Char → Bool
  | [], _ => true
  | _ :: _, [] => false
  | p :: ps, c :: cs => p = c && startsWithL ps cs

/-- Bool substring test (Python `needle in haystack`). -/
def containsSub (needle : List Char) : List Char → Bool
  | [] => startsWithL needle []
  | c :: t => startsWithL needle (c :: t) || containsSub needle t

/-! Deduplication (from `main`, line 498, and `load_existing_job_ids`). -/

/-- One scraped job posting, as assembled in `scrape_jobs`. -/
structure Job where
  job_id : List Char
  job_title : List Char
  company : List Char
  location : List Char
  experience_years : List Char
  salary : List Char
  description : List Char
  job_url : List Char
deriving DecidableEq

/-- The dedup filter from `main`:
`new_jobs = [j for j in all_jobs if j["job_id"] not in existing_ids]`. -/
def filterNew (postings : List Job) (seen : Finset (List Char)) : List Job :=
  postings.filter (fun j => decide (j.job_id ∉ seen))

/-- One persisted CSV row as seen by `csv.DictReader`; `job_id` is `none`
when the row has no `job_id` column. -/
structure CsvRow where
  job_id : Option (List Char)
deriving DecidableEq

/-- `load_existing_job_ids`: the store is `none` when `jobs.csv` does not
exist; otherwise the set `{row["job_id"] for row in reader if "job_id" in row}`. -/
def load_existing_job_ids : Option (List CsvRow) → Finset (List Char)
  | none => ∅
  | some rows => (rows.filterMap CsvRow.job_id).toFinset

/-! Rating extraction (`extract_rating`, lines 368-377). -/

/-- Matcher for the anchored pattern `Rating:\s*(High|Medium|Low)`
(IGNORECASE) at the current position; returns the captured group 1. -/
def ratingAnchorAt (l : List Char) : Option (List Char) :=
  match stripCI (str "rating:") l with
  | none => none
  | some (_, r) =>
    match stripCI (str "high") (skipWs r) with
    | some (g, _) => some g
    | none =>
      match stripCI (str "medium") (skipWs r) with
      | some (g, _) => some g
      | none =>
        match stripCI (str "low") (skipWs r) with
        | some (g, _) => some g
        | none => none

/-- `extract_rating`: regex-search for `Rating:\s*(High|Medium|Low)` and
capitalize the captured group; otherwise fall back to a case-insensitive
substring scan for "High", "Medium", "Low" in that order; else "Unknown". -/
def extract_rating (comment : List Char) : List Char :=
  match searchWith ratingAnchorAt comment with
  | some g => pyCapitalize g
  | none =>
    if containsSub (str "high") (lowerL comment) then str "High"
    else if containsSub (str "medium") (lowerL comment) then str "Medium"
    else if containsSub (str "low") (lowerL comment) then str "Low"
    else str "Unknown"

/-! Batch rating mapping (`generate_comments`, lines 307-365). -/

/-- One element of the parsed Gemini JSON array: `rating` and `bullets` are
optional because the code reads them with `result.get(...)` defaults. -/
structure GeminiRecord where
  job_id : List Char
  rating : Option (List Char)
  bullets : Option (List (List Char))
deriving DecidableEq

/-- Outcome of the Gemini call as observed by `generate_comments`:
a parsed record list, a `json.JSONDecodeError`, or any other exception. -/
inductive GeminiOutcome where
  | ok (results : List GeminiRecord)
  | parseFailure
  | apiFailure
deriving DecidableEq

/-- A job together with the comment attached by `generate_comments`. -/
structure RatedJob where
  job : Job
  comment : List Char
deriving DecidableEq

/-- `results_map = {r["job_id"]: r for r in results}` followed by
`results_map.get(id)`: duplicate ids keep the last record. -/
def resultsLookup (results : List GeminiRecord) (id : List Char) :
    Option GeminiRecord :=
  results.reverse.find? (fun r => r.job_id = id)

/-- Comment synthesis from `generate_comments`:
`"Rating: <rating>"` then each bullet on its own line prefixed `"- "`. -/
def synthComment (rating : List Char) (bullets : List (List Char)) : List Char :=
  str "Rating: " ++ rating ++ '\n' :: pyJoin (str "\n") (bullets.map (fun b => str "- " ++ b))

/-- `generate_comments`: attach a comment to every job of the batch.
On a parsed response, a job with a matching record gets the synthesized
comment (missing `rating`/`bullets` default to "Unknown"/`[]`); a job with
no matching record gets the placeholder; on a parse failure or any other
exception every job of the batch gets the corresponding error comment. -/
def generate_comments (jobs : List Job) (outcome : GeminiOutcome) : List RatedJob :=
  match outcome with
  | .ok results =>
    jobs.map (fun j =>
      match resultsLookup results j.job_id with
      | some r => ⟨j, synthComment (r.rating.getD (str "Unknown")) (r.bullets.getD [])⟩
      | none => ⟨j, str "Rating: Unknown\n- No analysis returned"⟩)
  | .parseFailure => jobs.map (fun j => ⟨j, str "Error: failed to parse Gemini response"⟩)
  | .apiFailure => jobs.map (fun j => ⟨j, str "Error generating comment"⟩)

/-! Experience extraction (`parse_experience`, lines 135-152).
Each of the six regex alternatives is compiled by hand into a matcher at a
fixed start position; for these patterns greedy matching never needs to
backtrack (every optional or starred element has a first character set
disjoint from what can legally follow it), so the matchers are written in
the direct committed style. -/

/-- Greedy split at the maximal leading digit run. -/
def takeDigits : List Char → List Char × List Char
  | [] => ([], [])
  | c :: t =>
    if isDig c then
      match takeDigits t with
      | (a, b) => (c :: a, b)
    else ([], c :: t)

/-- Greedy `(\d+)`: at least one digit, maximal run. -/
def digits1 (l : List Char) : Option (List Char × List Char) :=
  match takeDigits l with
  | ([], _) => none
  | (ds, r) => some (ds, r)

/-- Greedy `(\d+)?`: an optional maximal digit run (group captured iff
at least one digit is present). -/
def digitsOpt (l : List Char) : Option (List Char) × List Char :=
  match digits1 l with
  | some (d, r) => (some d, r)
  | none => (none, l)

/-- `\+?`: an optional literal plus sign. -/
def optPlus (l : List Char) : List Char :=
  match l with
  | c :: t => if c = '+' then t else l
  | [] => l

/-- `[-–]?`: an optional dash (hyphen or en dash). -/
def optDash (l : List Char) : List Char :=
  match l with
  | c :: t => if c = '-' ∨ c = '–' then t else l
  | [] => l

/-- `[-–]`: a required dash. -/
def reqDash (l : List Char) : Option (List Char) :=
  match l with
  | c :: t => if c = '-' ∨ c = '–' then some t else none
  | [] => none

/-- `\s+`: at least one whitespace character, then the maximal run. -/
def wsPlus (l : List Char) : Option (List Char) :=
  match l with
  | c :: t => if isWs c then some (skipWs t) else none
  | [] => none

/-- Case-insensitive literal without capture (the pattern is lower-case). -/
def litCI (pat l : List Char) : Option (List Char) :=
  match stripCI pat l with
  | some (_, r) => some r
  | none => none

/-- `s?` at the end of `years?` (IGNORECASE). -/
def optS (l : List Char) : List Char :=
  match l with
  | c :: t => if toLowerChar c = 's' then t else l
  | [] => l

/-- An optional non-capturing word group `(?:w\s+)?` such as `(?:of\s+)?`. -/
def optWordWs (w l : List Char) : List Char :=
  match litCI w l with
  | some r =>
    match wsPlus r with
    | some r2 => r2
    | none => l
  | none => l

/-- Pattern 1:
`(\d+)\+?\s*[-–]?\s*(\d+)?\+?\s*years?\s+(?:of\s+)?(?:relevant\s+)?(?:professional\s+)?experience`. -/
def expPat1At (l : List Char) : Option (List Char × Option (List Char)) :=
  match digits1 l with
  | none => none
  | some (g1, r) =>
    let r := skipWs (optDash (skipWs (optPlus r)))
    match digitsOpt r with
    | (g2, r) =>
      let r := skipWs (optPlus r)
      match litCI (str "year") r with
      | none => none
      | some r =>
        match wsPlus (optS r) with
        | none => none
        | some r =>
          let r := optWordWs (str "professional") (optWordWs (str "relevant") (optWordWs (str "of") r))
          match litCI (str "experience") r with
          | none => none
          | some _ => some (g1, g2)

/-- Pattern 2:
`(\d+)\+?\s*years?\s+(?:of\s+)?(?:relevant\s+)?(?:professional\s+)?experience`. -/
def expPat2At (l : List Char) : Option (List Char) :=
  match digits1 l with
  | none => none
  | some (g1, r) =>
    let r := skipWs (optPlus r)
    match litCI (str "year") r with
    | none => none
    | some r =>
      match wsPlus (optS r) with
      | none => none
      | some r =>
        let r := optWordWs (str "professional") (optWordWs (str "relevant") (optWordWs (str "of") r))
        match litCI (str "experience") r with
        | none => none
        | some _ => some g1

/-- Pattern 3: `(\d+)\s*[-–]\s*(\d+)\s*years?`. -/
def expPat3At (l : List Char) : Option (List Char × List Char) :=
  match digits1 l with
  | none => none
  | some (g1, r) =>
    match reqDash (skipWs r) with
    | none => none
    | some r =>
      match digits1 (skipWs r) with
      | none => none
      | some (g2, r) =>
        match litCI (str "year") (skipWs r) with
        | none => none
        | some _ => some (g1, g2)

/-- Pattern 4: `(\d+)\+\s*years?`. -/
def expPat4At (l : List Char) : Option (List Char) :=
  match digits1 l with
  | none => none
  | some (g1, r) =>
    match r with
    | c :: r =>
      if c = '+' then
        match litCI (str "year") (skipWs r) with
        | none => none
        | some _ => some g1
      else none
    | [] => none

/-- Pattern 5: `minimum\s+(?:of\s+)?(\d+)\s*years?`. -/
def expPat5At (l : List Char) : Option (List Char) :=
  match litCI (str "minimum") l with
  | none => none
  | some r =>
    match wsPlus r with
    | none => none
    | some r =>
      match digits1 (optWordWs (str "of") r) with
      | none => none
      | some (g1, r) =>
        match litCI (str "year") (skipWs r) with
        | none => none
        | some _ => some g1

/-- Pattern 6: `at\s+least\s+(\d+)\s*years?`. -/
def expPat6At (l : List Char) : Option (List Char) :=
  match litCI (str "at") l with
  | none => none
  | some r =>
    match wsPlus r with
    | none => none
    | some r =>
      match litCI (str "least") r with
      | none => none
      | some r =>
        match wsPlus r with
        | none => none
        | some r =>
          match digits1 r with
          | none => none
          | some (g1, r) =>
            match litCI (str "year") (skipWs r) with
            | none => none
            | some _ => some g1

/-- `parse_experience`: try the six patterns in priority order (each with
`re.search` leftmost-occurrence semantics, IGNORECASE); format two captured
groups as `"<a>-<b> years"`, one as `"<a>+ years"`, else `"Not specified"`. -/
def parse_experience (text : List Char) : List Char :=
  match searchWith expPat1At text with
  | some (g1, some g2) => g1 ++ '-' :: g2 ++ str " years"
  | some (g1, none) => g1 ++ str "+ years"
  | none =>
    match searchWith expPat2At text with
    | some g1 => g1 ++ str "+ years"
    | none =>
      match searchWith expPat3At text with
      | some (g1, g2) => g1 ++ '-' :: g2 ++ str " years"
      | none =>
        match searchWith expPat4At text with
        | some g1 => g1 ++ str "+ years"
        | none =>
          match searchWith expPat5At text with
          | some g1 => g1 ++ str "+ years"
          | none =>
            match searchWith expPat6At text with
            | some g1 => g1 ++ str "+ years"
            | none => str "Not specified"

/-! Salary extraction (`parse_salary`, lines 155-169). -/

/-- Character class `[-–to]` from the salary range separator. -/
def isSalSep (c : Char) : Bool :=
  c = '-' || c = '–' || c = 't' || c = 'o'

/-- `[\d,]` character class. -/
def isDigComma (c : Char) : Bool := isDig c || c = ','

/-- One dollar amount `\$[\d,]+\.?\d*[Kk]?(?:/yr)?` (case-sensitive, as in
the source where `parse_salary` passes no flags); returns the matched text
and the rest. -/
def salAmountAt (l : List Char) : Option (List Char × List Char) :=
  match l with
  | '$' :: t =>
    match t.span isDigComma with
    | ([], _) => none
    | (ds, r1) =>
      let (dot, r2) :=
        match r1 with
        | '.' :: t2 => ([('.' : Char)], t2)
        | _ => ([], r1)
      let (ds2, r3) := r2.span isDig
      let (k, r4) :=
        match r3 with
        | 'K' :: t4 => ([('K' : Char)], t4)
        | 'k' :: t4 => ([('k' : Char)], t4)
        | _ => ([], r3)
      let (yr, r5) :=
        match r4 with
        | '/' :: 'y' :: 'r' :: t5 => (str "/yr", t5)
        | _ => ([], r4)
      some ('$' :: ds ++ dot ++ ds2 ++ k ++ yr, r5)
  | _ => none

/-- The full salary pattern at a position: one amount optionally followed by
`\s*[-–to]+\s*` and a second amount; returns `match.group(0)`. -/
def salPatAt (l : List Char) : Option (List Char) :=
  match salAmountAt l with
  | none => none
  | some (m1, r) =>
    let (w1, ra) := r.span isWs
    match ra.span isSalSep with
    | ([], _) => some m1
    | (sep, rb) =>
      let (w2, rc) := rb.span isWs
      match salAmountAt rc with
      | some (m2, _) => some (m1 ++ w1 ++ sep ++ w2 ++ m2)
      | none => some m1

/-- `re.search(salary_pattern, s)` returning `group(0)`. -/
def searchSalary (l : List Char) : Option (List Char) :=
  searchWith salPatAt l

/-- `parse_salary`: scan each card-metadata string in order, first match
wins; fall back to the description; else `"Not listed"`. -/
def parse_salary : List (List Char) → List Char → List Char
  | [], description =>
    match searchSalary description with
    | some g => g
    | none => str "Not listed"
  | m :: rest, description =>
    match searchSalary m with
    | some g => g
    | none => parse_salary rest description

/-! Report rendering (`generate_email_html`, lines 406-473) and the
run-result flag written by `main` (lines 505 and 524). -/

/-- Python `"s".split("\n")`. -/
def pySplitNl : List Char → List (List Char)
  | [] => [[]]
  | '\n' :: t => [] :: pySplitNl t
  | c :: t =>
    match pySplitNl t with
    | h :: rest => (c :: h) :: rest
    | [] => [[c]]

/-- Python `str.strip()`. -/
def pyStrip (l : List Char) : List Char :=
  ((l.dropWhile isWs).reverse.dropWhile isWs).reverse

/-- `line.strip().startswith("- ")` test for bullet lines. -/
def isBulletLine (l : List Char) : Bool :=
  match l with
  | '-' :: ' ' :: _ => true
  | _ => false

/-- `rating_colors.get(rating, "#e2e3e5")`. -/
def ratingColor (r : List Char) : List Char :=
  if r = str "High" then str "#d4edda"
  else if r = str "Medium" then str "#fff3cd"
  else if r = str "Low" then str "#f8d7da"
  else if r = str "Unknown" then str "#e2e3e5"
  else str "#e2e3e5"

/-- One `<tr>` block of the results table, as built in the loop of
`generate_email_html`. -/
def rowHtml (r : RatedJob) : List Char :=
  let rating := extract_rating r.comment
  let bulletLines := ((pySplitNl r.comment).map pyStrip).filter isBulletLine
  let bulletsHtml := (bulletLines.map (fun b => str "<li>" ++ b.drop 2 ++ str "</li>")).flatten
  str "\n        <tr>\n            <td style=\"padding: 10px; border: 1px solid #ddd;\">\n                <a href=\"" ++
  r.job.job_url ++
  str "\" style=\"color: #0073b1; text-decoration: none; font-weight: bold;\">\n                    " ++
  r.job.job_title ++
  str "\n                </a>\n            </td>\n            <td style=\"padding: 10px; border: 1px solid #ddd;\">" ++
  r.job.company ++
  str "</td>\n            <td style=\"padding: 10px; border: 1px solid #ddd; text-align: center;\">" ++
  r.job.experience_years ++
  str "</td>\n            <td style=\"padding: 10px; border: 1px solid #ddd; text-align: center;\">" ++
  r.job.salary ++
  str "</td>\n            <td style=\"padding: 10px; border: 1px solid #ddd; background-color: " ++
  ratingColor rating ++
  str ";\">\n                <strong>[" ++
  rating ++
  str "]</strong>\n                <ul style=\"margin: 4px 0; padding-left: 18px; font-size: 13px;\">" ++
  bulletsHtml ++
  str "</ul>\n            </td>\n        </tr>"

/-- The table markup above the `rows_html` slot. -/
def tableOpen : List Char :=
  str "<table style=\"width: 100%; border-collapse: collapse; font-size: 14px;\">\n    <thead>\n        <tr style=\"background-color: #0073b1; color: white;\">\n            <th style=\"padding: 12px; border: 1px solid #ddd; text-align: left; width: 20%;\">Job Title</th>\n            <th style=\"padding: 12px; border: 1px solid #ddd; text-align: left; width: 12%;\">Company</th>\n            <th style=\"padding: 12px; border: 1px solid #ddd; text-align: center; width: 10%;\">Experience</th>\n            <th style=\"padding: 12px; border: 1px solid #ddd; text-align: center; width: 13%;\">Salary</th>\n            <th style=\"padding: 12px; border: 1px solid #ddd; text-align: left; width: 45%;\">Resume Match Analysis</th>\n        </tr>\n    </thead>\n    <tbody>\n        "

/-- The table markup below the `rows_html` slot. -/
def tableClose : List Char := str "\n    </tbody>\n</table>"

/-- The table markup wrapped around `rows_html` when the job list is
non-empty. -/
def tableHtml (rows : List Char) : List Char :=
  tableOpen ++ rows ++ tableClose

/-- The notice shown in place of the table when no new jobs were found. -/
def noJobsNotice : List Char :=
  str "<p style=\"color: #999; font-style: italic;\">No new jobs found in the past hour.</p>"

/-- Document text before the table-or-notice slot (timestamp and job count
are interpolated exactly as in the f-string). -/
def emailHead (timestamp : List Char) (n : Nat) : List Char :=
  str "<!DOCTYPE html>\n<html>\n<head><meta charset=\"utf-8\"></head>\n<body style=\"font-family: -apple-system, BlinkMacSystemFont, \x27Segoe UI\x27, Roboto, sans-serif; max-width: 1200px; margin: 0 auto; padding: 20px;\">\n\n<h2 style=\"color: #333;\">LinkedIn PM Job Alert</h2>\n<p style=\"color: #666;\">Scan time: " ++
  timestamp ++
  str " | Region: San Francisco Bay Area | Filter: Past 1 hour</p>\n<p style=\"color: #666;\">Found <strong>" ++
  str (toString n) ++
  str "</strong> new job(s)</p>\n\n"

/-- Document text after the table-or-notice slot. -/
def emailFoot : List Char :=
  str "\n\n<hr style=\"margin-top: 30px; border: none; border-top: 1px solid #eee;\">\n<p style=\"font-size: 12px; color: #999;\">\n    Generated by <a href=\"https://github.com/emmayisun/linkedin-job-tracker\">linkedin-job-tracker</a> GitHub Action\n</p>\n\n</body>\n</html>"

/-- `generate_email_html`: the row loop accumulates `rows_html`, and the
body slot holds the table when `jobs` is non-empty, the notice otherwise.
The timestamp is a parameter (the source reads the clock). -/
def generate_email_html (jobs : List RatedJob) (timestamp : List Char) : List Char :=
  let rows_html := jobs.foldl (fun acc j => acc ++ rowHtml j) []
  emailHead timestamp jobs.length ++
  (if jobs.isEmpty then noJobsNotice else tableHtml rows_html) ++
  emailFoot

/-- Content of `has_new_jobs.txt` as written by `main`: `"false"` on the
empty-new-jobs early return, `"true"` otherwise. -/
def has_new_jobs_content (new_jobs : List Job) : List Char :=
  if new_jobs.isEmpty then str "false" else str "true"

/-! Sample data used by witnesses and counterexamples. -/

/-- A concrete posting with a given id (other fields fixed). -/
def mkJob (id : List Char) : Job :=
  ⟨id, str "PM", str "Acme", str "SF", str "Not specified", str "Not listed",
   str "desc", str "https://www.linkedin.com/jobs/view/x/"⟩

/-- Posting with id "100" (end-to-end scenario 1). -/
def job100 : Job := mkJob (str "100")

/-- Posting with id "200" (end-to-end scenarios 1 and 3). -/
def job200 : Job := mkJob (str "200")

/-- Posting with id "300" (end-to-end scenario 3). -/
def job300 : Job := mkJob (str "300")

/-- Gemini record for job "200" (end-to-end scenario 3). -/
def rec200 : GeminiRecord :=
  ⟨str "200", some (str "High"), some [str "a", str "b", str "c"]⟩

/-- A rated posting used by the renderer witnesses. -/
def sampleRated : RatedJob := ⟨job200, str "Rating: High\n- a\n- b\n- c"⟩

/-- A CSV row carrying id "1". -/
def rowA : CsvRow := ⟨some (str "1")⟩

/-- A CSV row carrying id "2". -/
def rowB : CsvRow := ⟨some (str "2")⟩

theorem searchWith_self {α : Type} (f : List Char → Option α) (l : List Char)
    (g : α) (h : f l = some g) : searchWith f l = some g := by
  cases l <;> simp [searchWith, h]

theorem searchWith_eq_none {α : Type} (f : List Char → Option α) (l : List Char)
    (h : ∀ s ∈ l.tails, f s = none) : searchWith f l = none := by
  induction l with
  | nil => simpa [searchWith] using h [] (by simp)
  | cons c t ih =>
    have h0 : f (c :: t) = none := h (c :: t) (by simp [List.tails_cons])
    have ht : ∀ s ∈ t.tails, f s = none := fun s hs =>
      h s (by simp [List.tails_cons, hs])
    simp [searchWith, h0, ih ht]

theorem stripCI_sound (pat l m r : List Char)
    (h : stripCI pat l = some (m, r)) : m ++ r = l ∧ lowerL m = pat := by
  induction pat generalizing l m r with
  | nil =>
    simp [stripCI] at h
    simp [h.1, h.2, lowerL]
  | cons p ps ih =>
    cases l with
    | nil => simp [stripCI] at h
    | cons c cs =>
      simp only [stripCI] at h
      by_cases hc : toLowerChar c = p
      · rw [if_pos hc] at h
        cases hm : stripCI ps cs with
        | none => rw [hm] at h; simp at h
        | some mr =>
          obtain ⟨m', r'⟩ := mr
          rw [hm] at h
          simp at h
          obtain ⟨hm1, hr⟩ := h
          obtain ⟨ha, hb⟩ := ih cs m' r' hm
          subst hm1 hr
          constructor
          · simp [ha]
          · simp [lowerL] at hb ⊢
            exact ⟨hc, hb⟩
      · rw [if_neg hc] at h; simp at h

theorem stripCI_of_append (pat m rest : List Char) (h : lowerL m = pat) :
    stripCI pat (m ++ rest) = some (m, rest) := by
  induction m generalizing pat with
  | nil => simp [lowerL] at h; subst h; simp [stripCI]
  | cons c cs ih =>
    simp only [lowerL, List.map_cons] at h
    subst h
    have hcs := ih (lowerL cs) rfl
    simp only [lowerL] at hcs
    simp [stripCI, hcs]

theorem filterNew_mem (P : List Job) (S : Finset (List Char)) (j : Job) :
    j ∈ filterNew P S ↔ j ∈ P ∧ j.job_id ∉ S := by
  simp [filterNew]

/-- Claim C6: the deduplication filter returns exactly the sub-sequence of
the input postings whose id is absent from the seen-set, preserving the
original relative order and using exact-equality membership only; with
seen-set containing "100" and scraped ids "100", "200", only the "200"
posting remains. -/
theorem claim_C6 (P : List Job) (S : Finset (List Char)) :
    (filterNew P S).Sublist P ∧
    (∀ j : Job, j ∈ filterNew P S ↔ j ∈ P ∧ j.job_id ∉ S) ∧
    filterNew [job100, job200] {str "100"} = [job200] := by
  refine ⟨List.filter_sublist P, fun j => filterNew_mem P S j, ?_⟩
  decide

/-- Claim C2 counterexample: with seen-set `∅` and a single posting whose
id is "200", applying `filterNew` a second time with the same seen-set
(whether to the original postings or to the first result) yields the very
same non-empty list, not an empty one as the claim states. -/
theorem claim_C2_counterexample :
    filterNew (filterNew [job200] ∅) ∅ = [job200] ∧
    filterNew [job200] ∅ = [job200] ∧ [job200] ≠ ([] : List Job) := by
  refine ⟨by decide, by decide, by decide⟩

/-- Claim C2 amended: `filterNew` is idempotent in the usual sense — a
second application with the same seen-set and the same postings returns the
first result unchanged; the second application yields an empty result when
the seen-set is augmented with the ids of the postings returned by the
first application (as happens between runs once new postings are
persisted). -/
theorem claim_C2_amended (P : List Job) (S : Finset (List Char)) :
    filterNew (filterNew P S) S = filterNew P S ∧
    filterNew P (S ∪ ((filterNew P S).map Job.job_id).toFinset) = [] := by
  constructor
  · apply List.filter_eq_self.2
    intro j hj
    exact (List.mem_filter.1 hj).2
  · apply List.filter_eq_nil_iff.2
    intro j hj
    by_cases hS : j.job_id ∈ S
    · simp [hS]
    · have hmem : j ∈ filterNew P S := (filterNew_mem P S j).2 ⟨hj, hS⟩
      simp only [decide_eq_true_eq, Finset.mem_union, List.mem_toFinset,
        List.mem_map, not_not]
      exact Or.inr ⟨j, hmem, rfl⟩

theorem generate_comments_map_job (jobs : List Job) (outcome : GeminiOutcome) :
    (generate_comments jobs outcome).map RatedJob.job = jobs := by
  cases outcome with
  | ok results =>
    simp only [generate_comments, List.map_map]
    conv_rhs => rw [← List.map_id jobs]
    apply List.map_congr_left
    intro j _
    simp only [Function.comp_apply, id]
    cases resultsLookup results j.job_id <;> rfl
  | parseFailure =>
    simp only [generate_comments, List.map_map]
    conv_rhs => rw [← List.map_id jobs]
    exact List.map_congr_left fun j _ => rfl
  | apiFailure =>
    simp only [generate_comments, List.map_map]
    conv_rhs => rw [← List.map_id jobs]
    exact List.map_congr_left fun j _ => rfl

theorem generate_comments_length (jobs : List Job) (outcome : GeminiOutcome) :
    (generate_comments jobs outcome).length = jobs.length := by
  conv_rhs => rw [← generate_comments_map_job jobs outcome]
  rw [List.length_map]

/-- Claim C10: `generate_comments` returns one entry per input posting, in
the same order, and for every rating-service outcome it leaves every field
other than the comment unchanged — the projection back to the bare posting
list is the identity. -/
theorem claim_C10 (jobs : List Job) (outcome : GeminiOutcome) :
    (generate_comments jobs outcome).map RatedJob.job = jobs ∧
    (generate_comments jobs outcome).length = jobs.length :=
  ⟨generate_comments_map_job jobs outcome, generate_comments_length jobs outcome⟩

/-- Claim C3: for every batch and every rating-service outcome (parsed
response, response omitting ids, unparseable garbage, or a failed call),
`generate_comments` produces exactly one output entry per input posting —
never dropping one — and a posting whose id is missing from a parsed
response receives the placeholder comment `Rating: Unknown` with the single
bullet `No analysis returned`. -/
theorem claim_C3 (jobs : List Job) (outcome : GeminiOutcome) :
    (generate_comments jobs outcome).length = jobs.length ∧
    (∀ (i : Nat) (hi : i < jobs.length)
        (hi' : i < (generate_comments jobs outcome).length),
      ((generate_comments jobs outcome).get ⟨i, hi'⟩).job = jobs.get ⟨i, hi⟩) ∧
    (∀ results, outcome = .ok results →
      ∀ (i : Nat) (hi : i < jobs.length)
          (hi' : i < (generate_comments jobs outcome).length),
        resultsLookup results (jobs.get ⟨i, hi⟩).job_id = none →
        ((generate_comments jobs outcome).get ⟨i, hi'⟩).comment =
          str "Rating: Unknown\n- No analysis returned") := by
  refine ⟨generate_comments_length jobs outcome, ?_, ?_⟩
  · intro i hi hi'
    cases outcome with
    | ok results =>
      simp only [generate_comments, List.get_eq_getElem, List.getElem_map]
      cases resultsLookup results (jobs[i]).job_id <;> rfl
    | parseFailure =>
      simp [generate_comments]
    | apiFailure =>
      simp [generate_comments]
  · intro results hres i hi hi' hmiss
    subst hres
    simp only [generate_comments, List.get_eq_getElem, List.getElem_map]
    have hmiss' : resultsLookup results (jobs[i]).job_id = none := hmiss
    simp [hmiss']

/-- Claim C3 witness: a two-posting batch where the parsed response only
covers job "200" — the output still has two entries and job "300" gets the
placeholder comment. -/
theorem claim_C3_witness :
    (generate_comments [job200, job300] (.ok [rec200])).length = 2 ∧
    ((generate_comments [job200, job300] (.ok [rec200])).get
        ⟨1, by decide⟩).comment = str "Rating: Unknown\n- No analysis returned" := by
  refine ⟨(claim_C3 [job200, job300] (.ok [rec200])).1, ?_⟩
  exact (claim_C3 [job200, job300] (.ok [rec200])).2.2 [rec200] rfl 1
    (by decide) (by decide) (by decide)

/-- Claim C8: loading the seen-set returns the empty set when no store file
exists; when the store exists it returns exactly the set of id values of
the persisted rows, with order and multiplicity irrelevant. -/
theorem claim_C8 :
    load_existing_job_ids none = ∅ ∧
    (∀ (rows : List CsvRow) (id : List Char),
      id ∈ load_existing_job_ids (some rows) ↔ ∃ r ∈ rows, r.job_id = some id) ∧
    (∀ rows rows' : List CsvRow, rows.Perm rows' →
      load_existing_job_ids (some rows) = load_existing_job_ids (some rows')) ∧
    (∀ rows : List CsvRow,
      load_existing_job_ids (some (rows ++ rows)) = load_existing_job_ids (some rows)) := by
  refine ⟨rfl, ?_, ?_, ?_⟩
  · intro rows id
    simp [load_existing_job_ids, List.mem_filterMap]
  · intro rows rows' h
    exact List.toFinset_eq_of_perm _ _ (h.filterMap _)
  · intro rows
    simp [load_existing_job_ids, List.filterMap_append]

/-- Claim C8 witness: a concrete two-row store — membership matches the row
ids, swapping the rows leaves the seen-set unchanged, and duplicating the
rows leaves it unchanged. -/
theorem claim_C8_witness :
    load_existing_job_ids none = ∅ ∧
    (str "1" ∈ load_existing_job_ids (some [rowA, rowB]) ↔
      ∃ r ∈ [rowA, rowB], r.job_id = some (str "1")) ∧
    load_existing_job_ids (some [rowA, rowB]) =
      load_existing_job_ids (some [rowB, rowA]) ∧
    load_existing_job_ids (some ([rowA, rowB] ++ [rowA, rowB])) =
      load_existing_job_ids (some [rowA, rowB]) :=
  ⟨claim_C8.1, claim_C8.2.1 [rowA, rowB] (str "1"),
   claim_C8.2.2.1 [rowA, rowB] [rowB, rowA] (List.Perm.swap rowB rowA []),
   claim_C8.2.2.2 [rowA, rowB]⟩

theorem infix_of_middle (w m x y : List Char) (h : w <:+: m) :
    w <:+: x ++ m ++ y := by
  obtain ⟨s, t, e⟩ := h
  exact ⟨x ++ s, t ++ y, by rw [← e]; simp⟩

theorem infix_flatten_of_mem (w : List Char) :
    ∀ L : List (List Char), w ∈ L → w <:+: L.flatten
  | [], h => by simp at h
  | x :: L, h => by
    rcases List.mem_cons.1 h with h' | h'
    · exact ⟨[], L.flatten, by simp [h']⟩
    · obtain ⟨s, t, e⟩ := infix_flatten_of_mem w L h'
      exact ⟨x ++ s, t, by rw [List.flatten_cons, ← e]; simp⟩

theorem foldl_append_eq_flatten {α : Type} (f : α → List Char) (L : List α)
    (acc : List Char) :
    L.foldl (fun a j => a ++ f j) acc = acc ++ (L.map f).flatten := by
  induction L generalizing acc with
  | nil => simp
  | cons x L ih => simp [List.foldl_cons, ih]

/-- Claim C9: with no new postings the rendered report contains the
"no new postings" notice in place of the table and the flag artifact holds
`"false"`; with a non-empty list the report is the table built from exactly
one row per posting (each row appearing in the document) and the flag holds
`"true"`. -/
theorem claim_C9 (jobs : List RatedJob) (ts : List Char) :
    (jobs = [] → noJobsNotice <:+: generate_email_html [] ts ∧
      has_new_jobs_content [] = str "false") ∧
    (jobs ≠ [] →
      generate_email_html jobs ts =
        emailHead ts jobs.length ++ tableHtml ((jobs.map rowHtml).flatten) ++ emailFoot ∧
      (jobs.map rowHtml).length = jobs.length ∧
      (∀ r ∈ jobs, rowHtml r <:+: generate_email_html jobs ts) ∧
      has_new_jobs_content (jobs.map RatedJob.job) = str "true") := by
  constructor
  · intro _
    refine ⟨⟨emailHead ts 0, emailFoot, ?_⟩, rfl⟩
    simp [generate_email_html]
  · intro hne
    have hemp : jobs.isEmpty = false := by
      cases jobs with
      | nil => exact absurd rfl hne
      | cons a l => rfl
    have heq : generate_email_html jobs ts =
        emailHead ts jobs.length ++ tableHtml ((jobs.map rowHtml).flatten) ++ emailFoot := by
      simp [generate_email_html, hemp, foldl_append_eq_flatten]
    refine ⟨heq, List.length_map _ _, ?_, ?_⟩
    · intro r hr
      rw [heq, tableHtml]
      obtain ⟨s, t, e⟩ :=
        infix_flatten_of_mem (rowHtml r) (jobs.map rowHtml)
          (List.mem_map_of_mem rowHtml hr)
      exact ⟨emailHead ts jobs.length ++ (tableOpen ++ s),
        t ++ tableClose ++ emailFoot, by rw [← e]; simp⟩
    · have : (jobs.map RatedJob.job).isEmpty = false := by
        cases jobs with
        | nil => exact absurd rfl hne
        | cons a l => rfl
      simp [has_new_jobs_content, this]

/-- Claim C9 witness: the empty run renders the notice and flags `"false"`;
a one-posting run flags `"true"` and its row text occurs in the report. -/
theorem claim_C9_witness :
    noJobsNotice <:+: generate_email_html [] (str "TS") ∧
    has_new_jobs_content [] = str "false" ∧
    has_new_jobs_content ([sampleRated].map RatedJob.job) = str "true" ∧
    rowHtml sampleRated <:+: generate_email_html [sampleRated] (str "TS") := by
  have h0 := (claim_C9 [] (str "TS")).1 rfl
  have h1 := (claim_C9 [sampleRated] (str "TS")).2 (by simp)
  exact ⟨h0.1, h0.2, h1.2.2.2, h1.2.2.1 sampleRated (by simp)⟩

theorem parse_salary_first_match :
    ∀ (metas : List (List Char)) (desc m g : List Char),
      metas.find? (fun mm => (searchSalary mm).isSome) = some m →
      searchSalary m = some g → parse_salary metas desc = g
  | [], _, m, g, hfind, _ => by simp at hfind
  | m0 :: rest, desc, m, g, hfind, hsal => by
    cases h0 : searchSalary m0 with
    | some g0 =>
      have hm : m0 = m := by
        simpa [List.find?_cons, h0] using hfind
      subst hm
      rw [h0] at hsal
      simpa [parse_salary, h0] using hsal
    | none =>
      have hrest : rest.find? (fun mm => (searchSalary mm).isSome) = some m := by
        simpa [List.find?_cons, h0] using hfind
      simp only [parse_salary, h0]
      exact parse_salary_first_match rest desc m g hrest hsal

theorem parse_salary_ignores_desc :
    ∀ (metas : List (List Char)),
      (∃ m ∈ metas, (searchSalary m).isSome) →
      ∀ desc desc' : List Char, parse_salary metas desc = parse_salary metas desc'
  | [], h, _, _ => by simp at h
  | m0 :: rest, h, desc, desc' => by
    cases h0 : searchSalary m0 with
    | some g0 => simp [parse_salary, h0]
    | none =>
      obtain ⟨m, hm, hsome⟩ := h
      rcases List.mem_cons.1 hm with rfl | hm'
      · rw [h0] at hsome; simp at hsome
      · simp only [parse_salary, h0]
        exact parse_salary_ignores_desc rest ⟨m, hm', hsome⟩ desc desc'

theorem parse_salary_no_meta :
    ∀ (metas : List (List Char)) (desc : List Char),
      (∀ m ∈ metas, searchSalary m = none) →
      parse_salary metas desc =
        (match searchSalary desc with
         | some g => g
         | none => str "Not listed")
  | [], desc, _ => by rfl
  | m0 :: rest, desc, h => by
    have h0 : searchSalary m0 = none := h m0 (by simp)
    simp only [parse_salary, h0]
    exact parse_salary_no_meta rest desc fun m hm => h m (by simp [hm])

/-- Claim C5: if any metadata element contains a dollar-amount pattern,
`parse_salary` returns the match from the first such element and is
independent of the description text; only when no metadata element matches
is the description searched, and if nothing matches anywhere the result is
"Not listed". -/
theorem claim_C5 (metas : List (List Char)) (desc : List Char) :
    (∀ m g : List Char,
      metas.find? (fun mm => (searchSalary mm).isSome) = some m →
      searchSalary m = some g → parse_salary metas desc = g) ∧
    ((∃ m ∈ metas, (searchSalary m).isSome) →
      ∀ desc' : List Char, parse_salary metas desc = parse_salary metas desc') ∧
    ((∀ m ∈ metas, searchSalary m = none) →
      (∀ g, searchSalary desc = some g → parse_salary metas desc = g) ∧
      (searchSalary desc = none → parse_salary metas desc = str "Not listed")) := by
  refine ⟨fun m g hf hs => parse_salary_first_match metas desc m g hf hs,
    fun h desc' => parse_salary_ignores_desc metas h desc desc', fun h => ⟨?_, ?_⟩⟩
  · intro g hg
    rw [parse_salary_no_meta metas desc h, hg]
  · intro hg
    rw [parse_salary_no_meta metas desc h, hg]

/-- Claim C5 witness: metadata `["location", "$100K/yr - $120K/yr", "$1"]`
with description `"pays $999"` — the result is the first metadata match,
unchanged when the description changes; with no matching metadata the
description is searched. -/
theorem claim_C5_witness :
    parse_salary [str "location", str "$100K/yr - $120K/yr", str "$1"]
        (str "pays $999") = str "$100K/yr - $120K/yr" ∧
    parse_salary [str "location", str "$100K/yr - $120K/yr", str "$1"]
        (str "pays $999") =
      parse_salary [str "location", str "$100K/yr - $120K/yr", str "$1"]
        (str "something else") ∧
    parse_salary [str "location"] (str "pays $999") = str "$999" := by
  refine ⟨?_, ?_, ?_⟩
  · exact (claim_C5 _ _).1 (str "$100K/yr - $120K/yr")
      (str "$100K/yr - $120K/yr") (by decide) (by decide)
  · exact (claim_C5 _ _).2.1
      ⟨str "$100K/yr - $120K/yr", by decide, by decide⟩ (str "something else")
  · exact ((claim_C5 [str "location"] (str "pays $999")).2.2 (by decide)).1
      (str "$999") (by decide)

theorem not_isWs_of_isDig (c : Char) (h : isDig c = true) : isWs c = false := by
  by_cases h1 : c = ' '
  · subst h1; exact absurd h (by decide)
  by_cases h2 : c = '\t'
  · subst h2; exact absurd h (by decide)
  by_cases h3 : c = '\n'
  · subst h3; exact absurd h (by decide)
  by_cases h4 : c = '\r'
  · subst h4; exact absurd h (by decide)
  by_cases h5 : c = '\x0b'
  · subst h5; exact absurd h (by decide)
  by_cases h6 : c = '\x0c'
  · subst h6; exact absurd h (by decide)
  simp [isWs, h1, h2, h3, h4, h5, h6]

theorem takeDigits_append (d r : List Char) (hd : ∀ c ∈ d, isDig c = true)
    (hr : ∀ c, r.head? = some c → isDig c = false) :
    takeDigits (d ++ r) = (d, r) := by
  induction d with
  | nil =>
    cases r with
    | nil => rfl
    | cons c t =>
      have hc := hr c rfl
      simp [takeDigits, hc]
  | cons c d' ih =>
    have hc : isDig c = true := hd c (by simp)
    simp [takeDigits, hc, ih (fun x hx => hd x (by simp [hx]))]

theorem digits1_append (d r : List Char) (hne : d ≠ [])
    (hd : ∀ c ∈ d, isDig c = true)
    (hr : ∀ c, r.head? = some c → isDig c = false) :
    digits1 (d ++ r) = some (d, r) := by
  unfold digits1
  rw [takeDigits_append d r hd hr]
  cases d with
  | nil => exact absurd rfl hne
  | cons c d' => rfl

theorem skipWs_eq_self (l : List Char)
    (h : ∀ c, l.head? = some c → isWs c = false) : skipWs l = l := by
  cases l with
  | nil => rfl
  | cons c t => simp [skipWs, h c rfl]

theorem expPat1_plain (d post : List Char) (hne : d ≠ [])
    (hd : ∀ c ∈ d, isDig c = true) :
    expPat1At (d ++ (str " years experience" ++ post)) = some (d, none) := by
  have h1 : digits1 (d ++ (str " years experience" ++ post)) =
      some (d, str " years experience" ++ post) := by
    refine digits1_append _ _ hne hd ?_
    intro c hc
    have h' : some (' ' : Char) = some c := by rw [← hc]; rfl
    injection h' with h''
    rw [← h'']
    decide
  simp only [expPat1At, h1]
  rfl

theorem expPat1_mixed (d post : List Char) (hne : d ≠ [])
    (hd : ∀ c ∈ d, isDig c = true) :
    expPat1At (d ++ (str " Years EXPERIENCE" ++ post)) = some (d, none) := by
  have h1 : digits1 (d ++ (str " Years EXPERIENCE" ++ post)) =
      some (d, str " Years EXPERIENCE" ++ post) := by
    refine digits1_append _ _ hne hd ?_
    intro c hc
    have h' : some (' ' : Char) = some c := by rw [← hc]; rfl
    injection h' with h''
    rw [← h'']
    decide
  simp only [expPat1At, h1]
  rfl

theorem expPat1_range (d1 d2 post : List Char) (hne1 : d1 ≠ []) (hne2 : d2 ≠ [])
    (hd1 : ∀ c ∈ d1, isDig c = true) (hd2 : ∀ c ∈ d2, isDig c = true) :
    expPat1At (d1 ++ ('-' :: (d2 ++ (str " years experience" ++ post)))) =
      some (d1, some d2) := by
  have hR : ∀ c, (str " years experience" ++ post).head? = some c → isDig c = false := by
    intro c hc
    have h' : some (' ' : Char) = some c := by rw [← hc]; rfl
    injection h' with h''
    rw [← h'']
    decide
  have h1 : digits1 (d1 ++ ('-' :: (d2 ++ (str " years experience" ++ post)))) =
      some (d1, '-' :: (d2 ++ (str " years experience" ++ post))) := by
    refine digits1_append _ _ hne1 hd1 ?_
    intro c hc
    have h' : some ('-' : Char) = some c := by rw [← hc]; rfl
    injection h' with h''
    rw [← h'']
    decide
  have h2 : skipWs (d2 ++ (str " years experience" ++ post)) =
      d2 ++ (str " years experience" ++ post) := by
    refine skipWs_eq_self _ ?_
    intro c hc
    cases d2 with
    | nil => exact absurd rfl hne2
    | cons c0 t =>
      have h' : some c0 = some c := by rw [← hc]; rfl
      injection h' with h''
      rw [← h'']
      exact not_isWs_of_isDig c0 (hd2 c0 (by simp))
  have h3 : digits1 (d2 ++ (str " years experience" ++ post)) =
      some (d2, str " years experience" ++ post) :=
    digits1_append _ _ hne2 hd2 hR
  have e1 : optPlus ('-' :: (d2 ++ (str " years experience" ++ post))) =
      '-' :: (d2 ++ (str " years experience" ++ post)) := rfl
  have e2 : skipWs ('-' :: (d2 ++ (str " years experience" ++ post))) =
      '-' :: (d2 ++ (str " years experience" ++ post)) := rfl
  have e3 : optDash ('-' :: (d2 ++ (str " years experience" ++ post))) =
      d2 ++ (str " years experience" ++ post) := rfl
  simp only [expPat1At, h1, e1, e2, e3, h2, digitsOpt, h3]
  rfl

theorem parse_experience_no_match (text : List Char)
    (h : ∀ s ∈ text.tails, expPat1At s = none ∧ expPat2At s = none ∧
      expPat3At s = none ∧ expPat4At s = none ∧ expPat5At s = none ∧
      expPat6At s = none) :
    parse_experience text = str "Not specified" := by
  have h1 := searchWith_eq_none expPat1At text (fun s hs => (h s hs).1)
  have h2 := searchWith_eq_none expPat2At text (fun s hs => (h s hs).2.1)
  have h3 := searchWith_eq_none expPat3At text (fun s hs => (h s hs).2.2.1)
  have h4 := searchWith_eq_none expPat4At text (fun s hs => (h s hs).2.2.2.1)
  have h5 := searchWith_eq_none expPat5At text (fun s hs => (h s hs).2.2.2.2.1)
  have h6 := searchWith_eq_none expPat6At text (fun s hs => (h s hs).2.2.2.2.2)
  simp [parse_experience, h1, h2, h3, h4, h5, h6]

theorem expPat1At_nondigit (c : Char) (t : List Char) (h : isDig c = false) :
    expPat1At (c :: t) = none := by
  simp [expPat1At, digits1, takeDigits, h]

theorem searchWith_skip_nondigit {α : Type} (f : List Char → Option α)
    (hf : ∀ (c : Char) (t : List Char), isDig c = false → f (c :: t) = none) :
    ∀ pre rest : List Char, (∀ c ∈ pre, isDig c = false) →
      searchWith f (pre ++ rest) = searchWith f rest
  | [], _, _ => rfl
  | c :: pre', rest, hpre => by
    rw [List.cons_append]
    have h0 : f (c :: (pre' ++ rest)) = none := hf c _ (hpre c (by simp))
    show (match f (c :: (pre' ++ rest)) with
      | some g => some g
      | none => searchWith f (pre' ++ rest)) = searchWith f rest
    rw [h0]
    exact searchWith_skip_nondigit f hf pre' rest fun x hx => hpre x (by simp [hx])

/-- Claim C4: every text containing an unambiguous "N years experience"
phrase — no digit occurs before the phrase, so N is the first number of
the text — yields "N+ years" (also case-insensitively); a text containing
a range "N-M years experience" under the same condition yields
"N-M years"; a text on which none of the six patterns matches anywhere
yields "Not specified"; and the six patterns are tried in priority order
with the first match winning at the first occurrence. -/
theorem claim_C4 :
    (∀ pre d post : List Char, (∀ c ∈ pre, isDig c = false) →
      d ≠ [] → (∀ c ∈ d, isDig c = true) →
      parse_experience (pre ++ d ++ str " years experience" ++ post) =
        d ++ str "+ years") ∧
    (∀ pre d post : List Char, (∀ c ∈ pre, isDig c = false) →
      d ≠ [] → (∀ c ∈ d, isDig c = true) →
      parse_experience (pre ++ d ++ str " Years EXPERIENCE" ++ post) =
        d ++ str "+ years") ∧
    (∀ pre d1 d2 post : List Char, (∀ c ∈ pre, isDig c = false) →
      d1 ≠ [] → d2 ≠ [] →
      (∀ c ∈ d1, isDig c = true) → (∀ c ∈ d2, isDig c = true) →
      parse_experience
          (pre ++ d1 ++ str "-" ++ d2 ++ str " years experience" ++ post) =
        d1 ++ str "-" ++ d2 ++ str " years") ∧
    (∀ text : List Char,
      (∀ s ∈ text.tails, expPat1At s = none ∧ expPat2At s = none ∧
        expPat3At s = none ∧ expPat4At s = none ∧ expPat5At s = none ∧
        expPat6At s = none) →
      parse_experience text = str "Not specified") ∧
    (∀ (text : List Char) (g : List Char × List Char),
      searchWith expPat1At text = none → searchWith expPat2At text = none →
      searchWith expPat3At text = some g →
      parse_experience text = g.1 ++ '-' :: g.2 ++ str " years") := by
  refine ⟨?_, ?_, ?_, fun text h => parse_experience_no_match text h, ?_⟩
  · intro pre d post hpre hne hd
    have harr : pre ++ d ++ str " years experience" ++ post =
        pre ++ (d ++ (str " years experience" ++ post)) := by
      simp [List.append_assoc]
    rw [harr]
    have hskip := searchWith_skip_nondigit expPat1At expPat1At_nondigit pre
      (d ++ (str " years experience" ++ post)) hpre
    have hs := searchWith_self expPat1At (d ++ (str " years experience" ++ post))
      (d, none) (expPat1_plain d post hne hd)
    simp [parse_experience, hskip.trans hs]
  · intro pre d post hpre hne hd
    have harr : pre ++ d ++ str " Years EXPERIENCE" ++ post =
        pre ++ (d ++ (str " Years EXPERIENCE" ++ post)) := by
      simp [List.append_assoc]
    rw [harr]
    have hskip := searchWith_skip_nondigit expPat1At expPat1At_nondigit pre
      (d ++ (str " Years EXPERIENCE" ++ post)) hpre
    have hs := searchWith_self expPat1At (d ++ (str " Years EXPERIENCE" ++ post))
      (d, none) (expPat1_mixed d post hne hd)
    simp [parse_experience, hskip.trans hs]
  · intro pre d1 d2 post hpre hne1 hne2 hd1 hd2
    have harr : pre ++ d1 ++ str "-" ++ d2 ++ str " years experience" ++ post =
        pre ++ (d1 ++ ('-' :: (d2 ++ (str " years experience" ++ post)))) := by
      simp [str, List.append_assoc]
    rw [harr]
    have hskip := searchWith_skip_nondigit expPat1At expPat1At_nondigit pre
      (d1 ++ ('-' :: (d2 ++ (str " years experience" ++ post)))) hpre
    have hs := searchWith_self expPat1At
      (d1 ++ ('-' :: (d2 ++ (str " years experience" ++ post))))
      (d1, some d2) (expPat1_range d1 d2 post hne1 hne2 hd1 hd2)
    simp only [parse_experience, hskip.trans hs]
    simp [str, List.append_assoc]
  · intro text g h1 h2 h3
    simp [parse_experience, h1, h2, h3]

/-- Claim C4 witness: `"5 years experience"` and the embedded occurrence in
`"We need 5 years experience"` both yield `"5+ years"`,
`"3-7 years experience"` yields `"3-7 years"`, and `"nothing here"` yields
`"Not specified"`. -/
theorem claim_C4_witness :
    parse_experience (str "5 years experience") = str "5+ years" ∧
    parse_experience (str "We need 5 years experience") = str "5+ years" ∧
    parse_experience (str "3-7 years experience") = str "3-7 years" ∧
    parse_experience (str "nothing here") = str "Not specified" := by
  refine ⟨?_, ?_, ?_, ?_⟩
  · have h := claim_C4.1 [] (str "5") [] (by decide) (by decide) (by decide)
    rw [show str "5 years experience" =
      [] ++ str "5" ++ str " years experience" ++ [] from rfl]
    exact h
  · have h := claim_C4.1 (str "We need ") (str "5") [] (by decide) (by decide)
      (by decide)
    rw [show str "We need 5 years experience" =
      str "We need " ++ str "5" ++ str " years experience" ++ [] from rfl]
    exact h
  · have h := claim_C4.2.2.1 [] (str "3") (str "7") [] (by decide) (by decide)
      (by decide) (by decide) (by decide)
    rw [show str "3-7 years experience" =
      [] ++ str "3" ++ str "-" ++ str "7" ++ str " years experience" ++ [] from rfl]
    rw [show str "3-7 years" =
      str "3" ++ str "-" ++ str "7" ++ str " years" from rfl]
    exact h
  · exact claim_C4.2.2.2.1 (str "nothing here") (by decide)

theorem skipWs_suffix_ex (l : List Char) : ∃ p, p ++ skipWs l = l := by
  induction l with
  | nil => exact ⟨[], rfl⟩
  | cons c t ih =>
    by_cases h : isWs c = true
    · obtain ⟨p, hp⟩ := ih
      exact ⟨c :: p, by simp [skipWs, h, hp]⟩
    · exact ⟨[], by simp [skipWs, h]⟩

theorem lowerL_append (a b : List Char) : lowerL (a ++ b) = lowerL a ++ lowerL b :=
  List.map_append toLowerChar a b

theorem lowerL_cons (c : Char) (l : List Char) :
    lowerL (c :: l) = toLowerChar c :: lowerL l := rfl

theorem lowerL_pyJoin : ∀ (sep : List Char) (rows : List (List Char)),
    lowerL (pyJoin sep rows) = pyJoin (lowerL sep) (rows.map lowerL)
  | _, [] => rfl
  | _, [_] => rfl
  | sep, x :: y :: t => by
    simp only [pyJoin, lowerL_append, lowerL_pyJoin sep (y :: t), List.map_cons]

theorem prefix_through_sep : ∀ (w x : List Char) (c : Char) (y : List Char),
    c ∉ w → w <+: x ++ c :: y → w <+: x
  | [], x, _, _, _, _ => List.nil_prefix
  | a :: w', [], c, y, hc, h => by
    obtain ⟨t, ht⟩ := h
    simp only [List.nil_append, List.cons_append] at ht
    injection ht with h1 _
    rw [← h1] at hc
    exact absurd (List.mem_cons_self a w') hc
  | a :: w', b :: x', c, y, hc, h => by
    obtain ⟨t, ht⟩ := h
    simp only [List.cons_append] at ht
    injection ht with h1 h2
    have hw' : w' <+: x' :=
      prefix_through_sep w' x' c y (fun hm => hc (List.mem_cons_of_mem a hm)) ⟨t, h2⟩
    obtain ⟨t', ht'⟩ := hw'
    exact ⟨t', by rw [List.cons_append, ht', h1]⟩

theorem infix_drop_head (w : List Char) (c : Char) (x : List Char)
    (hc : c ∉ w) (h : w <:+: c :: x) : w <:+: x := by
  obtain ⟨s, t, e⟩ := h
  cases s with
  | nil =>
    cases w with
    | nil => exact ⟨[], x, by simp⟩
    | cons a w' =>
      simp only [List.nil_append, List.cons_append] at e
      injection e with h1 _
      rw [← h1] at hc
      exact absurd (List.mem_cons_self a w') hc
  | cons s0 s' =>
    simp only [List.cons_append] at e
    injection e with _ h2
    exact ⟨s', t, h2⟩

theorem infix_through_sep : ∀ (w x y : List Char) (c : Char),
    c ∉ w → w <:+: x ++ c :: y → w <:+: x ∨ w <:+: y
  | w, [], y, c, hc, h => Or.inr (infix_drop_head w c y hc (by simpa using h))
  | w, b :: x', y, c, hc, h => by
    have h' : w <:+: b :: (x' ++ c :: y) := by simpa using h
    rcases List.infix_cons_iff.1 h' with hp | hi
    · cases w with
      | nil => exact Or.inl ⟨[], b :: x', by simp⟩
      | cons a w' =>
        obtain ⟨t, ht⟩ := hp
        simp only [List.cons_append] at ht
        injection ht with h1 h2
        have hw' : w' <+: x' :=
          prefix_through_sep w' x' c y (fun hm => hc (List.mem_cons_of_mem a hm)) ⟨t, h2⟩
        obtain ⟨t', ht'⟩ := hw'
        exact Or.inl ⟨[], t', by simp [h1, ht']⟩
    · rcases infix_through_sep w x' y c hc hi with h1 | h1
      · exact Or.inl (List.infix_cons h1)
      · exact Or.inr h1

theorem infix_pyJoin : ∀ (w : List Char) (c : Char) (rows : List (List Char)),
    c ∉ w → w ≠ [] → w <:+: pyJoin [c] rows → ∃ row ∈ rows, w <:+: row
  | w, c, [], _, hne, h => by
    obtain ⟨s, t, e⟩ := h
    simp only [pyJoin, List.append_eq_nil] at e
    exact absurd e.1.2 hne
  | w, c, [x], _, _, h => ⟨x, by simp, by simpa [pyJoin] using h⟩
  | w, c, x :: y :: t, hc, hne, h => by
    have h' : w <:+: x ++ c :: pyJoin [c] (y :: t) := by
      simpa [pyJoin, List.append_assoc] using h
    rcases infix_through_sep w x (pyJoin [c] (y :: t)) c hc h' with h1 | h1
    · exact ⟨x, by simp, h1⟩
    · obtain ⟨row, hr, hrw⟩ := infix_pyJoin w c (y :: t) hc hne h1
      exact ⟨row, List.mem_cons_of_mem x hr, hrw⟩

theorem startsWithL_iff : ∀ p l : List Char, startsWithL p l = true ↔ p <+: l
  | [], l => by simp [startsWithL]
  | p :: ps, [] => by simp [startsWithL]
  | p :: ps, c :: cs => by
    simp only [startsWithL, Bool.and_eq_true, decide_eq_true_eq, startsWithL_iff ps cs]
    constructor
    · rintro ⟨rfl, t, ht⟩
      exact ⟨t, by rw [List.cons_append, ht]⟩
    · rintro ⟨t, ht⟩
      simp only [List.cons_append] at ht
      injection ht with h1 h2
      exact ⟨h1, ⟨t, h2⟩⟩

theorem containsSub_iff : ∀ n h : List Char, containsSub n h = true ↔ n <:+: h
  | n, [] => by
    simp [containsSub, startsWithL_iff]
  | n, c :: t => by
    simp only [containsSub, Bool.or_eq_true, startsWithL_iff, containsSub_iff n t]
    exact List.infix_cons_iff.symm

theorem toLowerChar_cases (a t : Char) (h : toLowerChar a = t) :
    a = t ∨ (65 ≤ a.toNat ∧ a.toNat ≤ 90 ∧ a.toNat + 32 = t.toNat) := by
  unfold toLowerChar at h
  by_cases hc : 65 ≤ a.toNat ∧ a.toNat ≤ 90
  · right
    rw [if_pos hc] at h
    refine ⟨hc.1, hc.2, ?_⟩
    have hv : (a.toNat + 32).isValidChar := Or.inl (by omega)
    have he : (Char.ofNat (a.toNat + 32)).toNat = a.toNat + 32 := by
      rw [Char.ofNat, dif_pos hv]; rfl
    rw [h] at he
    omega
  · left
    rw [if_neg hc] at h
    exact h

theorem toUpperChar_of_toLowerChar (a lo up : Char)
    (hl : 97 ≤ lo.toNat) (hl2 : lo.toNat ≤ 122)
    (hu : up.toNat + 32 = lo.toNat)
    (hup : toUpperChar lo = up)
    (h : toLowerChar a = lo) : toUpperChar a = up := by
  rcases toLowerChar_cases a lo h with rfl | ⟨h1, h2, h3⟩
  · exact hup
  · have ha : a.toNat = up.toNat := by omega
    have : a = up := Char.ext (UInt32.toNat.inj ha)
    subst this
    unfold toUpperChar
    rw [if_neg (by omega)]

theorem pyCapitalize_high (g : List Char) (h : lowerL g = str "high") :
    pyCapitalize g = str "High" := by
  cases g with
  | nil => exact absurd h (by decide)
  | cons a g' =>
    rw [show str "high" = 'h' :: str "igh" from rfl, lowerL_cons] at h
    injection h with h1 h2
    show toUpperChar a :: lowerL g' = str "High"
    rw [h2, toUpperChar_of_toLowerChar a 'h' 'H' (by decide) (by decide)
      (by decide) (by decide) h1]
    rfl

theorem pyCapitalize_medium (g : List Char) (h : lowerL g = str "medium") :
    pyCapitalize g = str "Medium" := by
  cases g with
  | nil => exact absurd h (by decide)
  | cons a g' =>
    rw [show str "medium" = 'm' :: str "edium" from rfl, lowerL_cons] at h
    injection h with h1 h2
    show toUpperChar a :: lowerL g' = str "Medium"
    rw [h2, toUpperChar_of_toLowerChar a 'm' 'M' (by decide) (by decide)
      (by decide) (by decide) h1]
    rfl

theorem pyCapitalize_low (g : List Char) (h : lowerL g = str "low") :
    pyCapitalize g = str "Low" := by
  cases g with
  | nil => exact absurd h (by decide)
  | cons a g' =>
    rw [show str "low" = 'l' :: str "ow" from rfl, lowerL_cons] at h
    injection h with h1 h2
    show toUpperChar a :: lowerL g' = str "Low"
    rw [h2, toUpperChar_of_toLowerChar a 'l' 'L' (by decide) (by decide)
      (by decide) (by decide) h1]
    rfl

theorem ratingAnchorAt_imp (l g : List Char) (h : ratingAnchorAt l = some g) :
    (lowerL g = str "high" ∨ lowerL g = str "medium" ∨ lowerL g = str "low") ∧
    lowerL g <:+: lowerL l := by
  unfold ratingAnchorAt at h
  cases h0 : stripCI (str "rating:") l with
  | none => rw [h0] at h; exact absurd h (by simp)
  | some mr =>
    obtain ⟨m, r⟩ := mr
    obtain ⟨hm, _⟩ := stripCI_sound _ _ _ _ h0
    obtain ⟨p, hp⟩ := skipWs_suffix_ex r
    have main : ∀ word r3 : List Char, stripCI word (skipWs r) = some (g, r3) →
        lowerL g = word ∧ lowerL g <:+: lowerL l := by
      intro word r3 hw
      obtain ⟨hgr, hlg⟩ := stripCI_sound _ _ _ _ hw
      refine ⟨hlg, lowerL m ++ lowerL p, lowerL r3, ?_⟩
      have hall : m ++ (p ++ (g ++ r3)) = l := by rw [hgr, hp, hm]
      rw [← hall]
      simp [lowerL_append, List.append_assoc]
    rw [h0] at h
    simp only at h
    cases h1 : stripCI (str "high") (skipWs r) with
    | some gr =>
      obtain ⟨g', r3⟩ := gr
      rw [h1] at h
      simp only [Option.some.injEq] at h
      subst h
      have := main (str "high") r3 h1
      exact ⟨Or.inl this.1, this.2⟩
    | none =>
      rw [h1] at h
      simp only at h
      cases h2 : stripCI (str "medium") (skipWs r) with
      | some gr =>
        obtain ⟨g', r3⟩ := gr
        rw [h2] at h
        simp only [Option.some.injEq] at h
        subst h
        have := main (str "medium") r3 h2
        exact ⟨Or.inr (Or.inl this.1), this.2⟩
      | none =>
        rw [h2] at h
        simp only at h
        cases h3 : stripCI (str "low") (skipWs r) with
        | some gr =>
          obtain ⟨g', r3⟩ := gr
          rw [h3] at h
          simp only [Option.some.injEq] at h
          subst h
          have := main (str "low") r3 h3
          exact ⟨Or.inr (Or.inr this.1), this.2⟩
        | none =>
          rw [h3] at h
          exact absurd h (by simp)

theorem searchWith_leftmost {α : Type} (f : List Char → Option α) :
    ∀ (l s : List Char) (g : α), s ∈ l.tails → f s = some g →
      (∀ s' ∈ l.tails, s.length < s'.length → f s' = none) →
      searchWith f l = some g
  | [], s, g, hs, hfs, _ => by
    simp [List.tails] at hs
    subst hs
    simpa [searchWith] using hfs
  | c :: t, s, g, hs, hfs, hmin => by
    have hs' : s = c :: t ∨ s ∈ t.tails := by
      simpa [List.tails_cons] using hs
    cases hf : f (c :: t) with
    | some g' =>
      have hseq : s = c :: t := by
        by_contra hne
        have hst : s ∈ t.tails := hs'.resolve_left hne
        have hlen : s.length ≤ t.length := by
          obtain ⟨u, hu⟩ := (List.mem_tails s t).1 hst
          have := congrArg List.length hu
          simp only [List.length_append] at this
          omega
        have hnone := hmin (c :: t) (by simp [List.tails_cons])
          (by simp only [List.length_cons]; omega)
        rw [hnone] at hf
        exact Option.noConfusion hf
      subst hseq
      rw [hf] at hfs
      simpa [searchWith, hf] using hfs
    | none =>
      have hne : s ≠ c :: t := by
        intro he
        rw [he, hf] at hfs
        exact Option.noConfusion hfs
      have hst : s ∈ t.tails := hs'.resolve_left hne
      have ht := searchWith_leftmost f t s g hst hfs
        (fun s' hs'' hl => hmin s' (by simp [List.tails_cons, hs'']) hl)
      simpa [searchWith, hf] using ht

/-- Claim C7: when the anchored pattern `Rating: <value>` is present
(leftmost occurrence), `extract_rating` returns the title-cased captured
value, which is one of High/Medium/Low; when the anchor is absent it
returns the first of the three rating words (in the order High, Medium,
Low) occurring case-insensitively anywhere in the string, and `Unknown`
when none occurs. -/
theorem claim_C7 (c : List Char) :
    (∀ (s g : List Char), s ∈ c.tails → ratingAnchorAt s = some g →
      (∀ s' ∈ c.tails, s.length < s'.length → ratingAnchorAt s' = none) →
      extract_rating c = pyCapitalize g ∧
      (pyCapitalize g = str "High" ∨ pyCapitalize g = str "Medium" ∨
        pyCapitalize g = str "Low")) ∧
    ((∀ s ∈ c.tails, ratingAnchorAt s = none) →
      (str "high" <:+: lowerL c → extract_rating c = str "High") ∧
      (¬ str "high" <:+: lowerL c → str "medium" <:+: lowerL c →
        extract_rating c = str "Medium") ∧
      (¬ str "high" <:+: lowerL c → ¬ str "medium" <:+: lowerL c →
        str "low" <:+: lowerL c → extract_rating c = str "Low") ∧
      (¬ str "high" <:+: lowerL c → ¬ str "medium" <:+: lowerL c →
        ¬ str "low" <:+: lowerL c → extract_rating c = str "Unknown")) := by
  constructor
  · intro s g hs hsg hmin
    have hsw := searchWith_leftmost ratingAnchorAt c s g hs hsg hmin
    have hword := (ratingAnchorAt_imp s g hsg).1
    refine ⟨by simp [extract_rating, hsw], ?_⟩
    rcases hword with hw | hw | hw
    · exact Or.inl (pyCapitalize_high g hw)
    · exact Or.inr (Or.inl (pyCapitalize_medium g hw))
    · exact Or.inr (Or.inr (pyCapitalize_low g hw))
  · intro hall
    have hsw := searchWith_eq_none ratingAnchorAt c hall
    refine ⟨?_, ?_, ?_, ?_⟩
    · intro hh
      simp [extract_rating, hsw, (containsSub_iff _ _).2 hh]
    · intro hh hm
      have hh' : containsSub (str "high") (lowerL c) = false := by
        cases hcs : containsSub (str "high") (lowerL c) with
        | false => rfl
        | true => exact absurd ((containsSub_iff _ _).1 hcs) hh
      simp [extract_rating, hsw, hh', (containsSub_iff _ _).2 hm]
    · intro hh hm hl
      have hh' : containsSub (str "high") (lowerL c) = false := by
        cases hcs : containsSub (str "high") (lowerL c) with
        | false => rfl
        | true => exact absurd ((containsSub_iff _ _).1 hcs) hh
      have hm' : containsSub (str "medium") (lowerL c) = false := by
        cases hcs : containsSub (str "medium") (lowerL c) with
        | false => rfl
        | true => exact absurd ((containsSub_iff _ _).1 hcs) hm
      simp [extract_rating, hsw, hh', hm', (containsSub_iff _ _).2 hl]
    · intro hh hm hl
      have hh' : containsSub (str "high") (lowerL c) = false := by
        cases hcs : containsSub (str "high") (lowerL c) with
        | false => rfl
        | true => exact absurd ((containsSub_iff _ _).1 hcs) hh
      have hm' : containsSub (str "medium") (lowerL c) = false := by
        cases hcs : containsSub (str "medium") (lowerL c) with
        | false => rfl
        | true => exact absurd ((containsSub_iff _ _).1 hcs) hm
      have hl' : containsSub (str "low") (lowerL c) = false := by
        cases hcs : containsSub (str "low") (lowerL c) with
        | false => rfl
        | true => exact absurd ((containsSub_iff _ _).1 hcs) hl
      simp [extract_rating, hsw, hh', hm', hl']

/-- Claim C7 witness: `"Rating: mEdIuM"` has the anchor as the whole text,
so the title-cased capture `Medium` is returned; `"so low..."` has no
anchor and the word scan returns `Low`; `"nothing"` returns `Unknown`. -/
theorem claim_C7_witness :
    extract_rating (str "Rating: mEdIuM") = pyCapitalize (str "mEdIuM") ∧
    extract_rating (str "so low...") = str "Low" ∧
    extract_rating (str "nothing") = str "Unknown" := by
  refine ⟨?_, ?_, ?_⟩
  · exact ((claim_C7 (str "Rating: mEdIuM")).1 (str "Rating: mEdIuM")
      (str "mEdIuM") (by decide) (by decide) (by decide)).1
  · exact ((claim_C7 (str "so low...")).2 (by decide)).2.2.1
      (by decide) (by decide) (by decide)
  · exact ((claim_C7 (str "nothing")).2 (by decide)).2.2.2
      (by decide) (by decide) (by decide)

/-- Claim C1 counterexample: synthesizing rating `Unknown` with a bullet
that mentions the word "High" and extracting the rating back yields
`High`, not the synthesized `Unknown` — the round trip fails on this
member of the claimed domain. -/
theorem claim_C1_counterexample :
    extract_rating (synthComment (str "Unknown")
      [str "High", str "b", str "c"]) = str "High" ∧
    extract_rating (synthComment (str "Unknown")
      [str "High", str "b", str "c"]) ≠ str "Unknown" := by
  refine ⟨by decide, by decide⟩

/-- Claim C1 amended: the round trip `extract_rating ∘ synthesize` is the
identity for ratings High, Medium and Low with arbitrary bullets; for
rating Unknown it is the identity provided no bullet contains any of the
words "high", "medium", "low" case-insensitively (otherwise the fallback
word scan of `extract_rating` reports that word instead). -/
theorem claim_C1_amended (r b1 b2 b3 : List Char)
    (h : r = str "High" ∨ r = str "Medium" ∨ r = str "Low" ∨
      (r = str "Unknown" ∧ ∀ b ∈ [b1, b2, b3],
        ¬ str "high" <:+: lowerL b ∧ ¬ str "medium" <:+: lowerL b ∧
        ¬ str "low" <:+: lowerL b)) :
    extract_rating (synthComment r [b1, b2, b3]) = r := by
  rcases h with rfl | rfl | rfl | ⟨rfl, hb⟩
  · have ha : ratingAnchorAt (synthComment (str "High") [b1, b2, b3]) =
        some (str "High") := rfl
    have hsw := searchWith_self ratingAnchorAt _ _ ha
    simp [extract_rating, hsw]
    decide
  · have ha : ratingAnchorAt (synthComment (str "Medium") [b1, b2, b3]) =
        some (str "Medium") := rfl
    have hsw := searchWith_self ratingAnchorAt _ _ ha
    simp [extract_rating, hsw]
    decide
  · have ha : ratingAnchorAt (synthComment (str "Low") [b1, b2, b3]) =
        some (str "Low") := rfl
    have hsw := searchWith_self ratingAnchorAt _ _ ha
    simp [extract_rating, hsw]
    decide
  · have hlowc : lowerL (synthComment (str "Unknown") [b1, b2, b3]) =
        str "rating: unknown" ++ '\n' :: pyJoin ['\n']
          [str "- " ++ lowerL b1, str "- " ++ lowerL b2, str "- " ++ lowerL b3] := by
      show lowerL (str "Rating: Unknown" ++
        ('\n' :: pyJoin (str "\n")
          [str "- " ++ b1, str "- " ++ b2, str "- " ++ b3])) = _
      rw [lowerL_append, lowerL_cons, lowerL_pyJoin]
      rw [show lowerL (str "Rating: Unknown") = str "rating: unknown" from by decide]
      rw [show toLowerChar '\n' = '\n' from by decide]
      congr 1
    have key : ∀ w : List Char,
        w = str "high" ∨ w = str "medium" ∨ w = str "low" →
        ¬ w <:+: lowerL (synthComment (str "Unknown") [b1, b2, b3]) := by
      intro w hw hinf
      rw [hlowc] at hinf
      have hcnot : ('\n' : Char) ∉ w := by rcases hw with rfl | rfl | rfl <;> decide
      rcases infix_through_sep w (str "rating: unknown") _ '\n' hcnot hinf with h1 | h1
      · rcases hw with rfl | rfl | rfl <;> exact absurd h1 (by decide)
      · have hne : w ≠ [] := by rcases hw with rfl | rfl | rfl <;> decide
        obtain ⟨row, hrow, hwrow⟩ := infix_pyJoin w '\n' _ hcnot hne h1
        simp only [List.mem_cons, List.not_mem_nil, or_false] at hrow
        have hdash : ('-' : Char) ∉ w := by rcases hw with rfl | rfl | rfl <;> decide
        have hsp : (' ' : Char) ∉ w := by rcases hw with rfl | rfl | rfl <;> decide
        have hwb : ∃ b ∈ [b1, b2, b3], w <:+: lowerL b := by
          rcases hrow with rfl | rfl | rfl
          · exact ⟨b1, by simp, infix_drop_head w ' ' _ hsp
              (infix_drop_head w '-' _ hdash (by simpa using hwrow))⟩
          · exact ⟨b2, by simp, infix_drop_head w ' ' _ hsp
              (infix_drop_head w '-' _ hdash (by simpa using hwrow))⟩
          · exact ⟨b3, by simp, infix_drop_head w ' ' _ hsp
              (infix_drop_head w '-' _ hdash (by simpa using hwrow))⟩
        obtain ⟨b, hbm, hbw⟩ := hwb
        obtain ⟨c1, c2, c3⟩ := hb b hbm
        rcases hw with rfl | rfl | rfl
        · exact absurd hbw c1
        · exact absurd hbw c2
        · exact absurd hbw c3
    have hanchor : searchWith ratingAnchorAt
        (synthComment (str "Unknown") [b1, b2, b3]) = none := by
      apply searchWith_eq_none
      intro s hs
      cases hsa : ratingAnchorAt s with
      | none => rfl
      | some g =>
        obtain ⟨hword, hinf⟩ := ratingAnchorAt_imp s g hsa
        obtain ⟨u, hu⟩ := (List.mem_tails s _).1 hs
        obtain ⟨s1, t1, e1⟩ := hinf
        have hsl : lowerL g <:+:
            lowerL (synthComment (str "Unknown") [b1, b2, b3]) := by
          refine ⟨lowerL u ++ s1, t1, ?_⟩
          rw [← hu, lowerL_append, ← e1]
          simp [List.append_assoc]
        exact absurd hsl (key (lowerL g) hword)
    have hh : containsSub (str "high")
        (lowerL (synthComment (str "Unknown") [b1, b2, b3])) = false := by
      cases hcs : containsSub (str "high")
          (lowerL (synthComment (str "Unknown") [b1, b2, b3])) with
      | false => rfl
      | true => exact absurd ((containsSub_iff _ _).1 hcs) (key _ (Or.inl rfl))
    have hm : containsSub (str "medium")
        (lowerL (synthComment (str "Unknown") [b1, b2, b3])) = false := by
      cases hcs : containsSub (str "medium")
          (lowerL (synthComment (str "Unknown") [b1, b2, b3])) with
      | false => rfl
      | true => exact absurd ((containsSub_iff _ _).1 hcs) (key _ (Or.inr (Or.inl rfl)))
    have hl : containsSub (str "low")
        (lowerL (synthComment (str "Unknown") [b1, b2, b3])) = false := by
      cases hcs : containsSub (str "low")
          (lowerL (synthComment (str "Unknown") [b1, b2, b3])) with
      | false => rfl
      | true => exact absurd ((containsSub_iff _ _).1 hcs) (key _ (Or.inr (Or.inr rfl)))
    simp [extract_rating, hanchor, hh, hm, hl]

/-- Claim C1 witness: the round trip at rating `High` with a bullet that
even mentions another rating anchor, and at rating `Unknown` with bullets
free of rating words. -/
theorem claim_C1_witness :
    extract_rating (synthComment (str "High")
      [str "x", str "Rating: Low", str "z"]) = str "High" ∧
    extract_rating (synthComment (str "Unknown")
      [str "ok", str "fine", str "gap"]) = str "Unknown" := by
  constructor
  · exact claim_C1_amended (str "High") (str "x") (str "Rating: Low") (str "z")
      (Or.inl rfl)
  · exact claim_C1_amended (str "Unknown") (str "ok") (str "fine") (str "gap")
      (Or.inr (Or.inr (Or.inr ⟨rfl, by decide⟩)))
